import Mathlib

/-!
Verification development for the auri repository.

Shallow embedding of the device registry (src/auri/device_manager.py,
src/auri/aurora.py) and of the ambilight pipeline (src/auri/ambilight.py,
src/auri/ambilight_controller.py), with theorems settling the spec claims.

Registry records are Python dicts; keys that may be absent are modelled as
Option fields (a lookup of an absent key raises KeyError in Python, which we
model as an explicit error value). Python dicts preserve insertion order, so
a registry is an association list keyed by ip address.
-/

namespace Auri

/-- JSON-ish values appearing in a serialized device record. -/
inductive JVal where
  | str (s : String)
  | bool (b : Bool)
  | null
deriving DecidableEq, Repr

/-- One device record as stored in the configuration mapping
(src/auri/device_manager.py lines 11-35). The `active` and `default` keys may
be absent, hence Option; `token` may be null. -/
structure AuroraData where
  name : String
  token : Option String
  mac : String
  active : Option Bool
  dflt : Option Bool
deriving DecidableEq, Repr

/-- The persisted configuration mapping: ip address to record, in insertion
order (AuroraConfigs in device_manager.py). -/
abbrev Registry := List (String × AuroraData)

/-- An Aurora device object (src/auri/aurora.py, Aurora.__init__). -/
structure Aurora where
  ip_address : String
  name : String
  mac : String
  auth_token : Option String
deriving DecidableEq, Repr

/-- Errors raised by DeviceManager operations. The source raises a single
DeviceNotExistsException with distinct messages, plus Python KeyError and
jsonschema.ValidationError; we keep the kinds apart. -/
inductive DMErr where
  | deviceNotFound (name : Option String)
  | noActiveDevice
  | setActiveNotFound (name : String)
  | keyError (key : String)
  | validationError
deriving DecidableEq, Repr

/-- Aurora.deserialize (src/auri/aurora.py lines 75-77). -/
def Aurora.deserialize (ip : String) (d : AuroraData) : Aurora :=
  { ip_address := ip, name := d.name, mac := d.mac, auth_token := d.token }

/-- The comparison data["name"] == name in get_by_name, where name may be
Python None (never equal to a string). -/
def nameMatches (n : Option String) (d : AuroraData) : Bool :=
  match n with
  | none => false
  | some s => d.name == s

/-- DeviceManager.get_by_name (src/auri/device_manager.py lines 111-118):
first record whose name equals the argument, else DeviceNotExistsException. -/
def get_by_name (configs : Registry) (n : Option String) : Except DMErr Aurora :=
  match configs.find? (fun e => nameMatches n e.2) with
  | some e => .ok (Aurora.deserialize e.1 e.2)
  | none => .error (.deviceNotFound n)

/-- DeviceManager.get_active (src/auri/device_manager.py lines 120-127):
first record whose "active" value is truthy; reading a missing "active" key
raises KeyError. -/
def get_active : Registry → Except DMErr Aurora
  | [] => .error .noActiveDevice
  | e :: rest =>
    match e.2.active with
    | none => .error (.keyError "active")
    | some true => .ok (Aurora.deserialize e.1 e.2)
    | some false => get_active rest

/-- DeviceManager.get_by_name_or_active (src/auri/device_manager.py lines
93-109): try by name; on DeviceNotExistsException fall back to the active
device. -/
def get_by_name_or_active (configs : Registry) (n : Option String) :
    Except DMErr Aurora :=
  match get_by_name configs n with
  | .ok a => .ok a
  | .error _ => get_active configs

/-- Every record carries an "active" key (true of any registry the manager
itself has saved; reads of "active" then cannot raise KeyError). -/
def activesPresent (configs : Registry) : Prop :=
  ∀ e ∈ configs, e.2.active ≠ none

instance (configs : Registry) : Decidable (activesPresent configs) := by
  unfold activesPresent
  infer_instance

/-- Splitting a character list at the dots, for the IPv4 key pattern of
configs_schema (src/auri/device_manager.py lines 22-35). -/
def splitOnDot : List Char → List (List Char)
  | [] => [[]]
  | c :: rest =>
    if c == '.' then
      [] :: splitOnDot rest
    else
      match splitOnDot rest with
      | [] => [[c]]
      | g :: gs => (c :: g) :: gs

/-- One run of 1 to 3 digits, the [0-9]{1,3} groups of the pattern. -/
def digitRun (g : List Char) : Bool :=
  decide (1 ≤ g.length) && decide (g.length ≤ 3) && g.all (fun c => c.isDigit)

/-- The anchored key pattern of configs_schema,
(?:[0-9]{1,3} dot){3}[0-9]{1,3}: exactly four digit runs separated by dots. -/
def isIPv4Key (s : String) : Bool :=
  match splitOnDot s.toList with
  | [a, b, c, d] => digitRun a && digitRun b && digitRun c && digitRun d
  | _ => false

/-- Whether one registry entry conforms to configs_schema. The schema only
constrains values under keys matching the IPv4 pattern, and only the types of
fields that are present: in the typed embedding name and mac are always
strings and active is absent or boolean, so they always conform, and the
"default" key is not mentioned by the schema at all; the one representable
violation is a token of Python None (token = none here, the value
Aurora.serialize writes for an unpaired device), which is not of type
string. -/
def record_conforms (e : String × AuroraData) : Bool :=
  !(isIPv4Key e.1) || e.2.token.isSome

/-- jsonschema.validate(configs, configs_schema) as called by
_ensure_valid_configs (src/auri/device_manager.py line 193): raises
ValidationError when any record violates the schema. -/
def schema_validate (configs : Registry) : Except DMErr Unit :=
  if configs.all record_conforms then .ok () else .error .validationError

/-- DeviceManager._clear_all_actives (src/auri/device_manager.py lines
244-247): sets data["active"] = False on every record (creating the key when
absent, as Python dict assignment does). -/
def clear_all_actives (configs : Registry) : Registry :=
  configs.map (fun e => (e.1, { e.2 with active := some false }))

/-- The expression len(list(filter(lambda a: a["active"], configs.values())))
from _ensure_valid_actives: counts truthy "active" values, raising KeyError at
the first record that lacks the key. -/
def count_actives : Registry → Except DMErr Nat
  | [] => .ok 0
  | e :: rest =>
    match e.2.active with
    | none => .error (.keyError "active")
    | some b => do
      let n ← count_actives rest
      pure (if b then n + 1 else n)

/-- DeviceManager._ensure_valid_actives (src/auri/device_manager.py lines
197-218): accept exactly one active record, accept an empty registry,
otherwise clear all flags and set the first record active. -/
def ensure_valid_actives (configs : Registry) : Except DMErr Registry := do
  let n ← count_actives configs
  if n = 1 then
    pure configs
  else if configs.length = 0 then
    pure configs
  else
    match clear_all_actives configs with
    | [] => pure []
    | e :: rest => pure ((e.1, { e.2 with active := some true }) :: rest)

/-- The rename step of _ensure_unique_names: name + " [duplicate]". -/
def dupSuffix (s : String) : String := s ++ " [duplicate]"

/-- Longest name seen so far; used only to justify termination of the
recursive rename in _ensure_unique_names. -/
def maxNameLen (names : List String) : Nat :=
  names.foldr (fun s m => max s.length m) 0

theorem length_dupSuffix (s : String) : (dupSuffix s).length = s.length + 12 := by
  simp [dupSuffix, String.length_append]
  rfl

theorem length_le_maxNameLen {names : List String} {s : String} (h : s ∈ names) :
    s.length ≤ maxNameLen names := by
  induction names with
  | nil => cases h
  | cons a l ih =>
    simp only [maxNameLen, List.foldr_cons] at *
    rcases List.mem_cons.mp h with rfl | hmem
    · exact Nat.le_max_left _ _
    · exact le_trans (ih hmem) (Nat.le_max_right _ _)

/-- The inner _unique_name recursion of DeviceManager._ensure_unique_names
(src/auri/device_manager.py lines 220-242): while the name collides with one
already seen, append the suffix and try again. -/
def uniqueName (names : List String) (name : String) : String :=
  if name ∈ names then uniqueName names (dupSuffix name) else name
termination_by maxNameLen names + 1 - name.length
decreasing_by
  rename_i h
  have h1 : name.length < maxNameLen names + 1 :=
    Nat.lt_succ_of_le (length_le_maxNameLen h)
  have h2 : name.length < (dupSuffix name).length := by
    rw [length_dupSuffix]; omega
  exact Nat.sub_lt_sub_left h1 h2

/-- The per-record pass of _ensure_unique_names: each record gets a name not
seen before, and its final name joins the seen list. -/
def ensure_unique_names_aux (names : List String) : Registry → Registry
  | [] => []
  | e :: rest =>
    let n := uniqueName names e.2.name
    (e.1, { e.2 with name := n }) :: ensure_unique_names_aux (names ++ [n]) rest

/-- DeviceManager._ensure_unique_names (src/auri/device_manager.py lines
220-242). -/
def ensure_unique_names (configs : Registry) : Registry :=
  ensure_unique_names_aux [] configs

/-- DeviceManager._ensure_valid_configs (src/auri/device_manager.py lines
191-195): jsonschema.validate first, then the active repair, then the
unique-name pass. -/
def ensure_valid_configs (configs : Registry) : Except DMErr Registry := do
  let _ ← schema_validate configs
  let c ← ensure_valid_actives configs
  pure (ensure_unique_names c)

/-- DeviceManager._save_config (src/auri/device_manager.py lines 185-189):
validates (and possibly repairs) the registry, then writes it; the returned
registry is the persisted content. An error means nothing was written. -/
def save_config (configs : Registry) : Except DMErr Registry :=
  ensure_valid_configs configs

/-- The search loop of set_active: find the first record whose name matches,
set its "active" to True, leave everything else in place. -/
def set_first_matching (name : String) : Registry → Option Registry
  | [] => none
  | e :: rest =>
    if e.2.name == name then
      some ((e.1, { e.2 with active := some true }) :: rest)
    else
      match set_first_matching name rest with
      | some rest' => some (e :: rest')
      | none => none

/-- DeviceManager.set_active (src/auri/device_manager.py lines 73-83): clear
all "active" flags, set it on the first record matching the name and persist,
or raise DeviceNotExistsException when no record matches (in which case
_save_config is never reached). -/
def set_active (configs : Registry) (name : String) : Except DMErr Registry :=
  match set_first_matching name (clear_all_actives configs) with
  | some c => save_config c
  | none => .error (.setActiveNotFound name)

/-- Persisted-state semantics of set_active: the config file is only
written inside _save_config, so on any error the persisted registry is the
previous one. -/
def persisted_after_set_active (persisted : Registry) (name : String) : Registry :=
  match set_active persisted name with
  | .ok c => c
  | .error _ => persisted

/-- Aurora.serialize (src/auri/aurora.py lines 65-73) as the literal dict it
builds: keys "name", "token", "mac", "default" and nothing else. -/
def Aurora.serialize (a : Aurora) : List (String × JVal) :=
  [("name", .str a.name),
   ("token", match a.auth_token with | none => .null | some t => .str t),
   ("mac", .str a.mac),
   ("default", .bool false)]

/-- The same serialized record viewed as an AuroraData: the "active" key is
absent, the "default" key is present with value False. -/
def Aurora.serializeData (a : Aurora) : AuroraData :=
  { name := a.name, token := a.auth_token, mac := a.mac,
    active := none, dflt := some false }

/-- Python dict.update with the single-entry dict {ip: data}: replace the
value in place when the key exists, else append. -/
def dict_update (configs : Registry) (ip : String) (d : AuroraData) : Registry :=
  if configs.any (fun e => e.1 == ip) then
    configs.map (fun e => if e.1 == ip then (ip, d) else e)
  else
    configs ++ [(ip, d)]

/-- DeviceManager.save_aurora (src/auri/device_manager.py lines 146-151):
configs.update(aurora.serialize()) then _save_config. -/
def save_aurora (configs : Registry) (a : Aurora) : Except DMErr Registry :=
  save_config (dict_update configs a.ip_address a.serializeData)

/-- Persisted-state semantics of save_aurora, as for set_active. -/
def persisted_after_save_aurora (persisted : Registry) (a : Aurora) : Registry :=
  match save_aurora persisted a with
  | .ok c => c
  | .error _ => persisted

/-! Ambilight pipeline (src/auri/ambilight.py, src/auri/ambilight_controller.py). -/

/-- A color triple after conversion: (hue, saturation, brightness) integers. -/
abbrev HsvColor := Int × Int × Int

/-- The sleep performed at the end of each tick of
AmbilightController._run_ambi_loop (src/auri/ambilight.py lines 113-123):
time.sleep(self._delay). The argument passed to sleep is the configured delay;
the elapsed processing time of the tick (measured into `start` and echoed when
verbose) is not subtracted from it. -/
def ambi_loop_sleep (delay elapsed : ℚ) : ℚ := delay

/-- Modelled from the spec (section 4.5): the sleep the spec describes,
delaySeconds minus the elapsed processing time, clamped below at zero. Stated
here only to compare against ambi_loop_sleep. -/
def spec_loop_sleep (delay elapsed : ℚ) : ℚ := max 0 (delay - elapsed)

/-- Outcome of AmbilightController.stop (src/auri/ambilight.py lines
102-111). -/
inductive StopOutcome where
  | completed
  | typeErr
deriving DecidableEq, Repr

/-- AmbilightController.stop (src/auri/ambilight.py lines 102-111) as a
function of the pid recovered from the pid file. When the pid is None the
code echoes a message but does not return, then calls
os.kill(None, signal.SIGKILL), which raises TypeError; only
ProcessLookupError is caught, so the TypeError escapes. With a pid present,
os.kill either succeeds or raises ProcessLookupError, which is caught; either
way the function completes normally. -/
def ambilight_stop (pid : Option Int) : StopOutcome :=
  match pid with
  | none => .typeErr
  | some _ => .completed

/-- AmbilightController.stop of the process-scanning variant
(src/auri/ambilight_controller.py lines 89-97): kill every process whose
command line matches the invocation signature; returns the list of killed
pids and always completes normally. -/
def controller_stop (matching_pids : List Int) : List Int :=
  matching_pids

/-- The greyness filter from set_effect_to_current_screen_colors
(src/auri/ambilight.py line 130): keep colors whose saturation (second
component) is at least the threshold. -/
def filter_grey (greyness : Int) (colors : List HsvColor) : List HsvColor :=
  colors.filter (fun c => greyness ≤ c.2.1)

/-- AmbilightController.set_effect_to_current_screen_colors, selection part
(src/auri/ambilight.py lines 125-136): filter by greyness, fall back to the
unfiltered list when the filter removed everything, then take the first
`top` entries. -/
def select_colors (greyness : Int) (top : Nat) (colors : List HsvColor) :
    List HsvColor :=
  let filtered := filter_grey greyness colors
  let chosen := if filtered.isEmpty then colors else filtered
  chosen.take top

/-- The top-count clamp from AmbilightController.__init__
(src/auri/ambilight.py lines 72-75): if quantization < top, reduce top to
quantization. -/
def effective_top (quantization top : Nat) : Nat :=
  if quantization < top then quantization else top

/-- Python int() truncation toward zero, on an exact rational. -/
def pyInt (q : ℚ) : Int :=
  if 0 ≤ q then ⌊q⌋ else -⌊-q⌋

/-- colorsys.rgb_to_hsv (Python standard library), transcribed over exact
rationals; inputs and outputs in [0, 1]. The final `% 1.0` on the hue is the
fractional part. -/
def colorsys_rgb_to_hsv (r g b : ℚ) : ℚ × ℚ × ℚ :=
  let maxc := max r (max g b)
  let minc := min r (min g b)
  let rangec := maxc - minc
  let v := maxc
  if minc = maxc then (0, 0, v)
  else
    let s := rangec / maxc
    let rc := (maxc - r) / rangec
    let gc := (maxc - g) / rangec
    let bc := (maxc - b) / rangec
    let h := if r = maxc then bc - gc
             else if g = maxc then 2 + rc - bc
             else 4 + gc - rc
    (Int.fract (h / 6), s, v)

/-- AmbilightController._rgb_to_hsv (src/auri/ambilight.py lines 169-180):
divide each channel by 255, convert, then scale hue by 360 and
saturation/brightness by 100, truncating to integer. The lru_cache on the
source function is a pure memoization and does not change the value. -/
def ambilight_rgb_to_hsv (c : Nat × Nat × Nat) : HsvColor :=
  let r : ℚ := (c.1 : ℚ) / 255
  let g : ℚ := (c.2.1 : ℚ) / 255
  let b : ℚ := (c.2.2 : ℚ) / 255
  let hsv := colorsys_rgb_to_hsv r g b
  (pyInt (hsv.1 * 360), pyInt (hsv.2.1 * 100), pyInt (hsv.2.2 * 100))

/-- One min/max range inside the effect template. -/
structure BRange where
  minValue : Int
  maxValue : Int
deriving DecidableEq, Repr

/-- One palette entry of the rendered effect. -/
structure PaletteEntry where
  hue : Int
  saturation : Int
  brightness : Int
deriving DecidableEq, Repr

/-- The effect payload structure sent to the device (the EFFECT_TEMPLATE dict
of src/auri/ambilight.py lines 25-45). -/
structure EffectTemplate where
  command : String
  animName : String
  animType : String
  colorType : String
  animData : Option String
  palette : List PaletteEntry
  brightnessRange : BRange
  transTime : BRange
  delayTime : BRange
  loop : Bool
deriving DecidableEq, Repr

/-- EFFECT_TEMPLATE (src/auri/ambilight.py lines 25-45). -/
def EFFECT_TEMPLATE : EffectTemplate :=
  { command := "add"
    animName := "AuriAmbi"
    animType := "random"
    colorType := "HSB"
    animData := none
    palette := []
    brightnessRange := { minValue := 50, maxValue := 100 }
    transTime := { minValue := 20, maxValue := 30 }
    delayTime := { minValue := 25, maxValue := 100 }
    loop := true }

/-- AmbilightController._render_effect_template (src/auri/ambilight.py lines
150-167): shallow-copy the template and replace its palette with the colors
mapped to hue/saturation/brightness entries. -/
def render_effect_template (colors : List HsvColor) : EffectTemplate :=
  { EFFECT_TEMPLATE with
    palette := colors.map (fun c =>
      { hue := c.1, saturation := c.2.1, brightness := c.2.2 }) }

/-! Lemmas about the unique-name rename of _ensure_unique_names. -/

/-- The names of a registry, in order. -/
def namesOf (l : Registry) : List String := l.map (fun e => e.2.name)

theorem uniqueName_not_mem (names : List String) (name : String) :
    uniqueName names name ∉ names := by
  by_cases h : name ∈ names
  · rw [uniqueName, if_pos h]
    exact uniqueName_not_mem names (dupSuffix name)
  · rw [uniqueName, if_neg h]
    exact h
termination_by maxNameLen names + 1 - name.length
decreasing_by
  have h1 : name.length < maxNameLen names + 1 :=
    Nat.lt_succ_of_le (length_le_maxNameLen h)
  have h2 : name.length < (dupSuffix name).length := by
    rw [length_dupSuffix]; omega
  exact Nat.sub_lt_sub_left h1 h2

theorem uniqueName_iterate (names : List String) (name : String) :
    ∃ k, uniqueName names name = dupSuffix^[k] name := by
  by_cases h : name ∈ names
  · rw [uniqueName, if_pos h]
    obtain ⟨k, hk⟩ := uniqueName_iterate names (dupSuffix name)
    exact ⟨k + 1, by rw [hk, Function.iterate_succ_apply]⟩
  · rw [uniqueName, if_neg h]
    exact ⟨0, rfl⟩
termination_by maxNameLen names + 1 - name.length
decreasing_by
  have h1 : name.length < maxNameLen names + 1 :=
    Nat.lt_succ_of_le (length_le_maxNameLen h)
  have h2 : name.length < (dupSuffix name).length := by
    rw [length_dupSuffix]; omega
  exact Nat.sub_lt_sub_left h1 h2

theorem ensure_unique_names_aux_nodup (l : Registry) : ∀ names : List String,
    (namesOf (ensure_unique_names_aux names l)).Nodup ∧
    ∀ s ∈ namesOf (ensure_unique_names_aux names l), s ∉ names := by
  induction l with
  | nil =>
    intro names
    simp [ensure_unique_names_aux, namesOf]
  | cons e rest ih =>
    intro names
    obtain ⟨ihn, ihm⟩ := ih (names ++ [uniqueName names e.2.name])
    simp only [ensure_unique_names_aux, namesOf, List.map_cons, List.nodup_cons]
    refine ⟨⟨fun hmem => ?_, ihn⟩, fun s hs => ?_⟩
    · exact (ihm _ hmem) (List.mem_append_right _ (List.mem_singleton.mpr rfl))
    · rcases List.mem_cons.mp hs with rfl | hmem
      · exact uniqueName_not_mem names e.2.name
      · exact fun hns => (ihm s hmem) (List.mem_append_left _ hns)

/-- Renaming preserves everything but the name, and each new name is the old
name with some number of " [duplicate]" suffixes appended. -/
theorem ensure_unique_names_aux_forall₂ (l : Registry) : ∀ names : List String,
    List.Forall₂ (fun e e' => e'.1 = e.1 ∧ e'.2.token = e.2.token ∧
      e'.2.mac = e.2.mac ∧ e'.2.active = e.2.active ∧ e'.2.dflt = e.2.dflt ∧
      ∃ k, e'.2.name = dupSuffix^[k] e.2.name)
      l (ensure_unique_names_aux names l) := by
  induction l with
  | nil =>
    intro names
    exact List.Forall₂.nil
  | cons e rest ih =>
    intro names
    exact List.Forall₂.cons
      ⟨rfl, rfl, rfl, rfl, rfl, uniqueName_iterate names e.2.name⟩ (ih _)

/-! Lemmas about name and active resolution. -/

theorem get_by_name_ok {configs : Registry} {n : String} {a : Aurora}
    (h : get_by_name configs (some n) = .ok a) :
    a.name = n ∧ ∃ e ∈ configs, e.2.name = n ∧ a = Aurora.deserialize e.1 e.2 := by
  unfold get_by_name at h
  cases hf : configs.find? (fun e => nameMatches (some n) e.2) with
  | none => rw [hf] at h; cases h
  | some e =>
    rw [hf] at h
    have hp := List.find?_some hf
    have hm := List.mem_of_find?_eq_some hf
    simp only [nameMatches, beq_iff_eq] at hp
    cases h
    exact ⟨hp, e, hm, hp, rfl⟩

theorem get_by_name_exists {configs : Registry} {n : String}
    (h : ∃ e ∈ configs, e.2.name = n) :
    ∃ a, get_by_name configs (some n) = .ok a := by
  obtain ⟨e, he, hn⟩ := h
  have hs : (configs.find? (fun e => nameMatches (some n) e.2)).isSome := by
    rw [List.find?_isSome]
    exact ⟨e, he, by simp [nameMatches, hn]⟩
  unfold get_by_name
  cases hf : configs.find? (fun e => nameMatches (some n) e.2) with
  | none => rw [hf] at hs; cases hs
  | some e' => exact ⟨_, rfl⟩

theorem get_by_name_fails {configs : Registry} {n : String}
    (h : ∀ e ∈ configs, e.2.name ≠ n) :
    get_by_name configs (some n) = .error (.deviceNotFound (some n)) := by
  unfold get_by_name
  rw [List.find?_eq_none.mpr]
  intro e he
  simpa [nameMatches] using h e he

theorem get_by_name_null (configs : Registry) :
    get_by_name configs none = .error (.deviceNotFound none) := by
  unfold get_by_name
  rw [List.find?_eq_none.mpr]
  intro e _
  simp [nameMatches]

theorem get_active_some {configs : Registry} (hwf : activesPresent configs)
    (h : ∃ e ∈ configs, e.2.active = some true) :
    ∃ e ∈ configs, e.2.active = some true ∧
      get_active configs = .ok (Aurora.deserialize e.1 e.2) := by
  induction configs with
  | nil => obtain ⟨e, he, _⟩ := h; cases he
  | cons e rest ih =>
    cases hae : e.2.active with
    | none => exact absurd hae (hwf e (List.mem_cons_self e rest))
    | some b =>
      cases b with
      | true =>
        exact ⟨e, List.mem_cons_self e rest, hae, by simp [get_active, hae]⟩
      | false =>
        have hwf' : activesPresent rest := fun x hx => hwf x (List.mem_cons_of_mem _ hx)
        have h' : ∃ x ∈ rest, x.2.active = some true := by
          obtain ⟨x, hx, hxa⟩ := h
          rcases List.mem_cons.mp hx with rfl | hxr
          · rw [hae] at hxa; cases hxa
          · exact ⟨x, hxr, hxa⟩
        obtain ⟨x, hx, hxa, hga⟩ := ih hwf' h'
        exact ⟨x, List.mem_cons_of_mem _ hx, hxa, by simp [get_active, hae, hga]⟩

theorem get_active_fails {configs : Registry} (hwf : activesPresent configs)
    (h : ∀ e ∈ configs, e.2.active ≠ some true) :
    get_active configs = .error .noActiveDevice := by
  induction configs with
  | nil => rfl
  | cons e rest ih =>
    cases hae : e.2.active with
    | none => exact absurd hae (hwf e (List.mem_cons_self e rest))
    | some b =>
      cases b with
      | true => exact absurd hae (h e (List.mem_cons_self e rest))
      | false =>
        simp only [get_active, hae]
        exact ih (fun x hx => hwf x (List.mem_cons_of_mem _ hx))
          (fun x hx => h x (List.mem_cons_of_mem _ hx))

/-- C1 (amended): for every registry whose records carry the active flag and
every non-null name, resolution by name returns a record whose name equals
the given name exactly whenever one exists; when no record matches the name,
resolution does not fail with DeviceNotFound but falls back to active
resolution. With a null name, and likewise in the fallback, it returns the
record with active = true, or fails with the no-active-device error when no
record is active. -/
theorem c1_resolution (configs : Registry) (n : String)
    (hwf : activesPresent configs) :
    ((∃ e ∈ configs, e.2.name = n) →
      ∃ a, get_by_name_or_active configs (some n) = .ok a ∧ a.name = n) ∧
    ((∀ e ∈ configs, e.2.name ≠ n) →
      get_by_name_or_active configs (some n) = get_active configs) ∧
    (get_by_name_or_active configs none = get_active configs) ∧
    ((∃ e ∈ configs, e.2.active = some true) →
      ∃ e ∈ configs, e.2.active = some true ∧
        get_active configs = .ok (Aurora.deserialize e.1 e.2)) ∧
    ((∀ e ∈ configs, e.2.active ≠ some true) →
      get_active configs = .error .noActiveDevice) := by
  refine ⟨?_, ?_, ?_, fun h => get_active_some hwf h, fun h => get_active_fails hwf h⟩
  · intro h
    obtain ⟨a, ha⟩ := get_by_name_exists h
    exact ⟨a, by simp [get_by_name_or_active, ha], (get_by_name_ok ha).1⟩
  · intro h
    simp [get_by_name_or_active, get_by_name_fails h]
  · simp [get_by_name_or_active, get_by_name_null]

/-- The registry of the C1 counterexample: a single active device named B. -/
def c1CexData : AuroraData :=
  { name := "B", token := some "tok", mac := "ab:cd", active := some true, dflt := none }

/-- See c1_resolution_counterexample. -/
def c1CexRegistry : Registry := [("192.168.0.1", c1CexData)]

/-- C1 counterexample: resolving the name "X" against a registry whose only
record is named "B" (and is active) returns that record B instead of failing
with DeviceNotFound, refuting the claim that resolution by name returns only
an exact match or the DeviceNotFound error. -/
theorem c1_resolution_counterexample :
    get_by_name_or_active c1CexRegistry (some "X") =
      .ok (Aurora.deserialize "192.168.0.1" c1CexData) ∧
    (Aurora.deserialize "192.168.0.1" c1CexData).name = "B" ∧
    get_by_name_or_active c1CexRegistry (some "X") ≠
      .error (.deviceNotFound (some "X")) :=
  ⟨rfl, rfl, fun h => Except.noConfusion h⟩

/-- The registry used by the C1 witness. -/
def c1WitnessRegistry : Registry :=
  [("10.0.0.1", { name := "A", token := some "t", mac := "m", active := some true, dflt := none })]

/-- Witness for c1_resolution at a concrete registry. -/
theorem c1_resolution_witness :
    ∃ a, get_by_name_or_active c1WitnessRegistry (some "A") = .ok a ∧ a.name = "A" :=
  (c1_resolution c1WitnessRegistry "A" (by decide)).1
    ⟨("10.0.0.1", { name := "A", token := some "t", mac := "m", active := some true, dflt := none }),
      by decide, rfl⟩

/-- C5: after the unique-name pass performed before every save
(_ensure_unique_names), no two records share a name; each record keeps its
ip, token, mac and active flag, and its new name is the old name with some
number of copies of the deterministic " [duplicate]" suffix appended (zero
when there was no collision). The renaming function uniqueName is defined by
well-founded recursion, so the repeated renaming terminates for every finite
registry. -/
theorem c5_unique_name_invariant (configs : Registry) :
    (namesOf (ensure_unique_names configs)).Nodup ∧
    List.Forall₂ (fun e e' => e'.1 = e.1 ∧ e'.2.token = e.2.token ∧
      e'.2.mac = e.2.mac ∧ e'.2.active = e.2.active ∧ e'.2.dflt = e.2.dflt ∧
      ∃ k, e'.2.name = dupSuffix^[k] e.2.name)
      configs (ensure_unique_names configs) :=
  ⟨(ensure_unique_names_aux_nodup configs []).1,
    ensure_unique_names_aux_forall₂ configs []⟩

/-! Lemmas about set_active and the single-active repair. -/

/-- Number of records whose "active" value is True. -/
def activeCount (l : Registry) : Nat :=
  (l.filter (fun e => e.2.active == some true)).length

theorem activeCount_cons (e : String × AuroraData) (l : Registry) :
    activeCount (e :: l) =
      (if e.2.active = some true then 1 else 0) + activeCount l := by
  simp only [activeCount, List.filter_cons]
  split
  · rename_i h
    rw [if_pos (by simpa using h)]
    simp [Nat.add_comm]
  · rename_i h
    rw [if_neg (by simpa using h)]
    simp

theorem activeCount_zero {l : Registry}
    (h : ∀ e ∈ l, e.2.active = some false) : activeCount l = 0 := by
  induction l with
  | nil => rfl
  | cons e rest ih =>
    rw [activeCount_cons, if_neg (by simp [h e (List.mem_cons_self e rest)]),
      ih (fun x hx => h x (List.mem_cons_of_mem _ hx))]

theorem activeCount_eq_of_forall₂ {l l' : Registry}
    (h : List.Forall₂ (fun e e' => e'.2.active = e.2.active) l l') :
    activeCount l' = activeCount l := by
  induction h with
  | nil => rfl
  | cons hr _ ih =>
    rename_i a b l₁ l₂
    rw [activeCount_cons, activeCount_cons, ih, hr]

theorem count_actives_eq {l : Registry} (h : ∀ e ∈ l, e.2.active ≠ none) :
    count_actives l = .ok (activeCount l) := by
  induction l with
  | nil => rfl
  | cons e rest ih =>
    cases hae : e.2.active with
    | none => exact absurd hae (h e (List.mem_cons_self e rest))
    | some b =>
      have hrest := ih (fun x hx => h x (List.mem_cons_of_mem _ hx))
      cases b <;>
        simp [count_actives, hae, hrest, activeCount_cons, Nat.add_comm,
          bind, Except.bind, pure, Except.pure]

theorem clear_all_actives_false (l : Registry) :
    ∀ e ∈ clear_all_actives l, e.2.active = some false := by
  intro e he
  simp only [clear_all_actives, List.mem_map] at he
  obtain ⟨x, _, rfl⟩ := he
  rfl

theorem clear_all_actives_names (l : Registry) :
    namesOf (clear_all_actives l) = namesOf l := by
  simp [clear_all_actives, namesOf, List.map_map]

theorem clear_all_actives_length (l : Registry) :
    (clear_all_actives l).length = l.length := by
  simp [clear_all_actives]

theorem mem_clear_all_actives {l : Registry} {x : String × AuroraData}
    (hx : x ∈ l) :
    (x.1, { x.2 with active := some false }) ∈ clear_all_actives l :=
  List.mem_map.mpr ⟨x, hx, rfl⟩

theorem set_first_matching_none {name : String} {l : Registry}
    (h : ∀ e ∈ l, e.2.name ≠ name) : set_first_matching name l = none := by
  induction l with
  | nil => rfl
  | cons e rest ih =>
    have hh : (e.2.name == name) = false := by
      simpa using h e (List.mem_cons_self e rest)
    simp only [set_first_matching, hh, Bool.false_eq_true, if_false,
      ih (fun x hx => h x (List.mem_cons_of_mem _ hx))]

theorem set_first_matching_spec {name : String} {l : Registry}
    (hall : ∀ e ∈ l, e.2.active = some false)
    (hex : ∃ e ∈ l, e.2.name = name) :
    ∃ l', set_first_matching name l = some l' ∧
      l'.length = l.length ∧
      activeCount l' = 1 ∧
      (∀ e ∈ l', e.2.active ≠ none) ∧
      (∃ e ∈ l', e.2.active = some true ∧ e.2.name = name) ∧
      List.Forall₂ (fun e e' => e'.1 = e.1 ∧ e'.2.token = e.2.token) l l' := by
  induction l with
  | nil => simp at hex
  | cons e rest ih =>
    by_cases h : e.2.name = name
    · refine ⟨(e.1, { e.2 with active := some true }) :: rest,
        by simp [set_first_matching, h], by simp, ?_, ?_, ?_, ?_⟩
      · rw [activeCount_cons, if_pos rfl,
          activeCount_zero (fun x hx => hall x (List.mem_cons_of_mem _ hx))]
      · intro x hx
        rcases List.mem_cons.mp hx with rfl | hxr
        · simp
        · rw [hall x (List.mem_cons_of_mem _ hxr)]; simp
      · exact ⟨(e.1, { e.2 with active := some true }),
          List.mem_cons_self _ _, rfl, h⟩
      · exact List.Forall₂.cons ⟨rfl, rfl⟩
          (List.forall₂_same.mpr (fun x _ => ⟨rfl, rfl⟩))
    · have hex' : ∃ x ∈ rest, x.2.name = name := by
        obtain ⟨x, hx, hxn⟩ := hex
        rcases List.mem_cons.mp hx with rfl | hxr
        · exact absurd hxn h
        · exact ⟨x, hxr, hxn⟩
      obtain ⟨l', hl', hlen, hcount, hpres, hmem, hf2⟩ :=
        ih (fun x hx => hall x (List.mem_cons_of_mem _ hx)) hex'
      have hh : (e.2.name == name) = false := by simpa using h
      refine ⟨e :: l', ?_, by simp [hlen], ?_, ?_, ?_, ?_⟩
      · simp only [set_first_matching, hh, Bool.false_eq_true, if_false, hl']
      · rw [activeCount_cons,
          if_neg (by rw [hall e (List.mem_cons_self e rest)]; simp), hcount]
      · intro x hx
        rcases List.mem_cons.mp hx with rfl | hxr
        · rw [hall x (List.mem_cons_self x rest)]; simp
        · exact hpres x hxr
      · obtain ⟨x, hx, hxa, hxn⟩ := hmem
        exact ⟨x, List.mem_cons_of_mem _ hx, hxa, hxn⟩
      · exact List.Forall₂.cons ⟨rfl, rfl⟩ hf2

theorem ensure_valid_actives_one {l : Registry} (h : count_actives l = .ok 1) :
    ensure_valid_actives l = .ok l := by
  simp [ensure_valid_actives, h, bind, Except.bind, pure, Except.pure]

theorem schema_validate_ok {l : Registry}
    (hs : l.all record_conforms = true) : schema_validate l = .ok () := by
  simp [schema_validate, hs]

theorem schema_validate_fails {l : Registry}
    (hs : l.all record_conforms = false) :
    schema_validate l = .error .validationError := by
  simp [schema_validate, hs]

theorem all_conforms_eq_of_forall₂ {l l' : Registry}
    (h : List.Forall₂ (fun e e' => e'.1 = e.1 ∧ e'.2.token = e.2.token) l l') :
    l'.all record_conforms = l.all record_conforms := by
  induction h with
  | nil => rfl
  | cons hr _ ih =>
    rw [List.all_cons, List.all_cons, ih]
    congr 1
    simp [record_conforms, hr.1, hr.2]

theorem clear_all_actives_forall₂ (l : Registry) :
    List.Forall₂ (fun e e' => e'.1 = e.1 ∧ e'.2.token = e.2.token)
      l (clear_all_actives l) := by
  unfold clear_all_actives
  rw [List.forall₂_map_right_iff]
  exact List.forall₂_same.mpr (fun x _ => ⟨rfl, rfl⟩)

theorem save_config_one {l : Registry} (hs : l.all record_conforms = true)
    (h : count_actives l = .ok 1) :
    save_config l = .ok (ensure_unique_names l) := by
  simp [save_config, ensure_valid_configs, schema_validate_ok hs,
    ensure_valid_actives_one h, bind, Except.bind, pure, Except.pure]

theorem forall₂_exists_mem {α β : Type} {R : α → β → Prop} {l : List α}
    {l' : List β} (h : List.Forall₂ R l l') :
    ∀ {x : α}, x ∈ l → ∃ y ∈ l', R x y := by
  induction h with
  | nil => intro x hx; cases hx
  | cons hr hrest ih =>
    intro x hx
    rcases List.mem_cons.mp hx with rfl | hxr
    · exact ⟨_, List.mem_cons_self _ _, hr⟩
    · obtain ⟨y, hy, hxy⟩ := ih hxr
      exact ⟨y, List.mem_cons_of_mem _ hy, hxy⟩

/-- C4 (amended): for every registry that conforms to the persisted-record
schema (every record under an IPv4-patterned key has a string token),
set_active either clears every active flag, marks the record matching the
name active and persists the result (the persisted registry has exactly one
active record, unique names, and its active record carries the requested
name, possibly extended by the unique-name pass with " [duplicate]"
suffixes), or, when no record matches, fails with the DeviceNotFound error.
On a registry violating the schema it fails with ValidationError instead of
persisting, even when a record matches the name. In every failure case the
persisted registry is exactly the one from before the call (all-or-nothing:
the config file is only written after validation succeeds). -/
theorem c4_set_active (configs : Registry) (name : String) :
    ((∀ e ∈ configs, e.2.name ≠ name) →
      set_active configs name = .error (.setActiveNotFound name) ∧
      persisted_after_set_active configs name = configs) ∧
    (∀ err, set_active configs name = .error err →
      persisted_after_set_active configs name = configs) ∧
    ((∃ e ∈ configs, e.2.name = name) →
      configs.all record_conforms = false →
      set_active configs name = .error .validationError) ∧
    ((∃ e ∈ configs, e.2.name = name) →
      configs.all record_conforms = true →
      ∃ out, set_active configs name = .ok out ∧
        persisted_after_set_active configs name = out ∧
        out.length = configs.length ∧
        activeCount out = 1 ∧
        (namesOf out).Nodup ∧
        ∃ e ∈ out, e.2.active = some true ∧
          ∃ k, e.2.name = dupSuffix^[k] name) := by
  have hclear₂ := clear_all_actives_forall₂ configs
  have hall := clear_all_actives_false configs
  have hmatch : (∃ e ∈ configs, e.2.name = name) →
      ∃ e ∈ clear_all_actives configs, e.2.name = name := by
    intro h
    obtain ⟨x, hx, hxn⟩ := h
    exact ⟨(x.1, { x.2 with active := some false }),
      mem_clear_all_actives hx, hxn⟩
  refine ⟨?_, ?_, ?_, ?_⟩
  · intro h
    have hcl : ∀ e ∈ clear_all_actives configs, e.2.name ≠ name := by
      intro e he
      simp only [clear_all_actives, List.mem_map] at he
      obtain ⟨x, hx, rfl⟩ := he
      exact h x hx
    have hnone := set_first_matching_none hcl
    exact ⟨by simp [set_active, hnone],
      by simp [persisted_after_set_active, set_active, hnone]⟩
  · intro err herr
    simp [persisted_after_set_active, herr]
  · intro hex hbad
    obtain ⟨l', hl', hlen, hcount, hpres, hmem, hf2tok⟩ :=
      set_first_matching_spec hall (hmatch hex)
    have hbad' : l'.all record_conforms = false := by
      rw [all_conforms_eq_of_forall₂ hf2tok,
        all_conforms_eq_of_forall₂ hclear₂, hbad]
    have hsave : save_config l' = .error .validationError := by
      simp [save_config, ensure_valid_configs, schema_validate_fails hbad',
        bind, Except.bind]
    simp [set_active, hl', hsave]
  · intro hex hgood
    obtain ⟨l', hl', hlen, hcount, hpres, hmem, hf2tok⟩ :=
      set_first_matching_spec hall (hmatch hex)
    have hgood' : l'.all record_conforms = true := by
      rw [all_conforms_eq_of_forall₂ hf2tok,
        all_conforms_eq_of_forall₂ hclear₂, hgood]
    have hca : count_actives l' = .ok 1 := by rw [count_actives_eq hpres, hcount]
    have hset : set_active configs name = .ok (ensure_unique_names l') := by
      simp [set_active, hl', save_config_one hgood' hca]
    have hf2 := ensure_unique_names_aux_forall₂ l' []
    refine ⟨ensure_unique_names l', hset,
      by simp [persisted_after_set_active, hset], ?_, ?_,
      (ensure_unique_names_aux_nodup l' []).1, ?_⟩
    · calc (ensure_unique_names l').length = l'.length := hf2.length_eq.symm
        _ = (clear_all_actives configs).length := hlen
        _ = configs.length := clear_all_actives_length configs
    · have hact : List.Forall₂ (fun e e' => e'.2.active = e.2.active)
          l' (ensure_unique_names l') :=
        hf2.imp (fun a b h => h.2.2.2.1)
      rw [activeCount_eq_of_forall₂ hact, hcount]
    · obtain ⟨e₀, he₀, he₀a, he₀n⟩ := hmem
      obtain ⟨e', he', hrel⟩ := forall₂_exists_mem hf2 he₀
      obtain ⟨_, _, _, hact', _, k, hk⟩ := hrel
      exact ⟨e', he', by rw [hact', he₀a], k, by rw [hk, he₀n]⟩

/-- The registry of the C4 counterexample: the single record is named B and
active, its key matches the IPv4 pattern, but its token is null, violating
configs_schema. -/
def c4CexRegistry : Registry := [("1.1.1.1", ⟨"B", none, "m", some true, none⟩)]

/-- C4 counterexample: on a schema-violating registry whose only record is
named B (null token under an IPv4-patterned key), set_active "B" finds the
matching record yet fails with ValidationError raised by jsonschema.validate
inside _save_config: it neither persists the activation nor fails with the
DeviceNotFound error, refuting the claimed dichotomy for every registry.
Nothing is persisted. -/
theorem c4_set_active_counterexample :
    ("1.1.1.1", (⟨"B", none, "m", some true, none⟩ : AuroraData)) ∈ c4CexRegistry ∧
    set_active c4CexRegistry "B" = .error .validationError ∧
    set_active c4CexRegistry "B" ≠ .error (.setActiveNotFound "B") ∧
    (∀ out : Registry, set_active c4CexRegistry "B" ≠ .ok out) ∧
    persisted_after_set_active c4CexRegistry "B" = c4CexRegistry := by
  have h1 : set_active c4CexRegistry "B" = .error .validationError := rfl
  refine ⟨List.mem_cons_self _ _, h1, ?_, ?_, rfl⟩
  · rw [h1]
    intro h
    simp at h
  · intro out
    rw [h1]
    intro h
    simp at h

/-- The registry used by the C4 witness: two devices, A active, B not, both
with string tokens under IPv4 keys (schema-conforming). -/
def c4WitnessRegistry : Registry :=
  [("1.1.1.1", ⟨"A", some "t", "m1", some true, none⟩),
   ("2.2.2.2", ⟨"B", some "u", "m2", some false, none⟩)]

/-- Witness for c4_set_active: a missing name fails without persisting, the
schema-violating registry fails with ValidationError (and persists nothing),
and activating B on the conforming registry succeeds. -/
theorem c4_set_active_witness :
    (set_active c4WitnessRegistry "Z" = .error (.setActiveNotFound "Z") ∧
      persisted_after_set_active c4WitnessRegistry "Z" = c4WitnessRegistry) ∧
    set_active c4CexRegistry "B" = .error .validationError ∧
    persisted_after_set_active c4CexRegistry "B" = c4CexRegistry ∧
    (∃ out, set_active c4WitnessRegistry "B" = .ok out ∧
      persisted_after_set_active c4WitnessRegistry "B" = out ∧
      out.length = c4WitnessRegistry.length ∧
      activeCount out = 1 ∧
      (namesOf out).Nodup ∧
      ∃ e ∈ out, e.2.active = some true ∧
        ∃ k, e.2.name = dupSuffix^[k] "B") :=
  ⟨(c4_set_active c4WitnessRegistry "Z").1 (by decide),
   (c4_set_active c4CexRegistry "B").2.2.1
     ⟨("1.1.1.1", ⟨"B", none, "m", some true, none⟩), by decide, rfl⟩ (by decide),
   (c4_set_active c4CexRegistry "B").2.1 .validationError
     ((c4_set_active c4CexRegistry "B").2.2.1
       ⟨("1.1.1.1", ⟨"B", none, "m", some true, none⟩), by decide, rfl⟩ (by decide)),
   (c4_set_active c4WitnessRegistry "B").2.2.2
     ⟨("2.2.2.2", ⟨"B", some "u", "m2", some false, none⟩), by decide, rfl⟩
     (by decide)⟩

/-- C2 (failing input): upserting a device into the empty registry via
DeviceManager.save_aurora always fails the caller and persists nothing, so
the claimed auto-repair to exactly one active record never happens. For every
paired device (a string token, the only kind the setup flow ever saves, since
generate_token asserts the token is not None before save_aurora is reached)
validation reaches _ensure_valid_actives and raises KeyError("active"),
because Aurora.serialize writes the key "default" instead of "active"; an
unpaired device with a null token under an IPv4-patterned key fails even
earlier, with ValidationError from jsonschema.validate. -/
theorem c2_upsert_keyerror (a : Aurora) :
    (a.auth_token ≠ none → save_aurora [] a = .error (.keyError "active")) ∧
    (∃ err, save_aurora [] a = .error err) ∧
    persisted_after_save_aurora [] a = [] := by
  have hkey : a.auth_token ≠ none →
      save_aurora [] a = .error (.keyError "active") := by
    intro h
    cases ht : a.auth_token with
    | none => exact absurd ht h
    | some t =>
      simp [save_aurora, dict_update, save_config, ensure_valid_configs,
        schema_validate, record_conforms, Aurora.serializeData, ht,
        ensure_valid_actives, count_actives, bind, Except.bind]
  have hfail : ∃ err, save_aurora [] a = .error err := by
    cases ht : a.auth_token with
    | some t => exact ⟨_, hkey (by simp [ht])⟩
    | none =>
      by_cases hip : isIPv4Key a.ip_address
      · exact ⟨.validationError,
          by simp [save_aurora, dict_update, save_config, ensure_valid_configs,
            schema_validate, record_conforms, Aurora.serializeData, ht, hip,
            bind, Except.bind]⟩
      · exact ⟨.keyError "active",
          by simp [save_aurora, dict_update, save_config, ensure_valid_configs,
            schema_validate, record_conforms, Aurora.serializeData, ht, hip,
            ensure_valid_actives, count_actives, bind, Except.bind]⟩
  obtain ⟨err, herr⟩ := hfail
  exact ⟨hkey, ⟨err, herr⟩, by simp [persisted_after_save_aurora, herr]⟩

/-- The paired device used by the C2 witness. -/
def c2WitnessAurora : Aurora :=
  { ip_address := "192.168.0.7", name := "W", mac := "mm", auth_token := some "tk" }

/-- Witness for c2_upsert_keyerror at a concrete paired device. -/
theorem c2_upsert_keyerror_witness :
    save_aurora [] c2WitnessAurora = .error (.keyError "active") ∧
    persisted_after_save_aurora [] c2WitnessAurora = [] :=
  ⟨(c2_upsert_keyerror c2WitnessAurora).1 (by decide),
   (c2_upsert_keyerror c2WitnessAurora).2.2⟩

/-- Record A of the C3 scenario. -/
def c3DeviceA : Aurora :=
  { ip_address := "192.168.0.42", name := "A", mac := "ab:cd", auth_token := some "tok" }

/-- C3 (failing input): in the scenario empty registry, upsert A, save, load,
resolve(null), the save step raises KeyError("active") (Aurora.serialize
emits the key "default", not "active", and _ensure_valid_actives reads
data["active"]), so nothing is persisted and resolving with a null name on
the still-empty registry fails with the no-active-device error instead of
returning A. -/
theorem c3_scenario_fails :
    save_aurora [] c3DeviceA = .error (.keyError "active") ∧
    persisted_after_save_aurora [] c3DeviceA = [] ∧
    get_by_name_or_active [] none = .error .noActiveDevice :=
  ⟨rfl, rfl, rfl⟩

theorem dict_update_lookup_value {configs : Registry} {ip : String}
    {d : AuroraData} {e : String × AuroraData}
    (he : e ∈ dict_update configs ip d) (hip : e.1 = ip) : e.2 = d := by
  unfold dict_update at he
  split at he
  · obtain ⟨x, hx, hxe⟩ := List.mem_map.mp he
    by_cases hc : (x.1 == ip) = true
    · rw [if_pos hc] at hxe
      rw [← hxe]
    · rw [if_neg hc] at hxe
      subst hxe
      exact absurd (by simp [hip]) hc
  · rename_i hany
    rcases List.mem_append.mp he with h1 | h2
    · exact absurd (List.any_eq_true.mpr ⟨e, h1, by simp [hip]⟩) hany
    · rw [List.mem_singleton.mp h2]

/-- C10: Aurora.serialize emits a record with exactly the keys name, token,
mac and default, in that order, with default always False; it never emits an
"active" key, and therefore the record that save_aurora merges into the
registry under the device ip address carries no active flag, whatever the
device was. -/
theorem c10_serialize_no_active (a : Aurora) :
    a.serialize.map Prod.fst = ["name", "token", "mac", "default"] ∧
    a.serialize.lookup "default" = some (.bool false) ∧
    a.serialize.lookup "active" = none ∧
    a.serializeData.active = none ∧
    a.serializeData.dflt = some false ∧
    ∀ configs : Registry, ∀ e ∈ dict_update configs a.ip_address a.serializeData,
      e.1 = a.ip_address → e.2.active = none := by
  refine ⟨rfl, rfl, rfl, rfl, rfl, fun configs e he hip => ?_⟩
  rw [dict_update_lookup_value he hip]
  rfl

/-- Witness for c10_serialize_no_active at a concrete device and registry. -/
theorem c10_serialize_no_active_witness :
    (Aurora.serialize ⟨"10.1.1.1", "W", "mm", none⟩).lookup "active" = none ∧
    ("10.1.1.1", Aurora.serializeData ⟨"10.1.1.1", "W", "mm", none⟩).2.active = none :=
  ⟨(c10_serialize_no_active ⟨"10.1.1.1", "W", "mm", none⟩).2.2.1,
   (c10_serialize_no_active ⟨"10.1.1.1", "W", "mm", none⟩).2.2.2.2.2 []
     ("10.1.1.1", Aurora.serializeData ⟨"10.1.1.1", "W", "mm", none⟩)
     (by decide) rfl⟩

/-- C6 counterexample: with a configured delay of 1 second and a tick whose
processing took 1 second, the loop sleeps the full 1 second, while the claim
says the sleep is the delay minus the elapsed time clamped at zero, here 0. -/
theorem c6_sleep_counterexample :
    ambi_loop_sleep 1 1 = 1 ∧ spec_loop_sleep 1 1 = 0 ∧
    ambi_loop_sleep 1 1 ≠ spec_loop_sleep 1 1 := by
  refine ⟨rfl, by norm_num [spec_loop_sleep], by norm_num [ambi_loop_sleep, spec_loop_sleep]⟩

/-- C6 (amended): the sleep after each tick of _run_ambi_loop is the
configured delay unconditionally; the elapsed processing time is not
subtracted, so the code never sleeps less than the duration the claim
describes and processing time extends the tick period instead of being
absorbed by it. -/
theorem c6_sleep_amended (delay elapsed : ℚ) (hd : 0 ≤ delay) (he : 0 ≤ elapsed) :
    ambi_loop_sleep delay elapsed = delay ∧
    spec_loop_sleep delay elapsed ≤ ambi_loop_sleep delay elapsed := by
  refine ⟨rfl, ?_⟩
  simp only [spec_loop_sleep, ambi_loop_sleep]
  exact max_le hd (by linarith)

/-- Witness for c6_sleep_amended at delay 2, elapsed 3. -/
theorem c6_sleep_amended_witness :
    ambi_loop_sleep 2 3 = 2 ∧ spec_loop_sleep 2 3 ≤ ambi_loop_sleep 2 3 :=
  c6_sleep_amended 2 3 (by norm_num) (by norm_num)

/-- C7 (failing input): AmbilightController.stop of src/auri/ambilight.py,
called when no process id has been recorded (load_pid gives None), does not
return after the "Could not find a running ambi" message and goes on to call
os.kill(None, SIGKILL), which raises TypeError past the except clause that
only catches ProcessLookupError; the call does not complete normally. The
process-scanning variant in src/auri/ambilight_controller.py kills nothing
and completes when no process matches. -/
theorem c7_stop_raises :
    ambilight_stop none = StopOutcome.typeErr ∧
    controller_stop [] = [] :=
  ⟨rfl, rfl⟩

theorem take_ne_nil_of_pos {α : Type} {l : List α} (hl : l ≠ [])
    {n : Nat} (hn : 0 < n) : l.take n ≠ [] := by
  cases l with
  | nil => exact absurd rfl hl
  | cons a t =>
    cases n with
    | zero => omega
    | succ m => simp [List.take]

/-- C8: the greyness filter keeps exactly the sampled colors whose saturation
is at least the threshold, preserving their ranked order; when it removes
every entry the selection falls back to the original unfiltered ranked list;
the final selection is a take of the first top entries, keeps the original
frequency order (it is a sublist of the sampled list of length at most top),
and is never empty when at least one color was sampled and top is positive
(the configured top is 10). -/
theorem c8_greyness_fallback (greyness : Int) (top : Nat)
    (colors : List HsvColor) (hne : colors ≠ []) (htop : 0 < top) :
    (∀ c, c ∈ filter_grey greyness colors ↔ c ∈ colors ∧ greyness ≤ c.2.1) ∧
    List.Sublist (filter_grey greyness colors) colors ∧
    ((∀ c ∈ colors, c.2.1 < greyness) →
      select_colors greyness top colors = colors.take top) ∧
    (select_colors greyness top colors).length ≤ top ∧
    List.Sublist (select_colors greyness top colors) colors ∧
    select_colors greyness top colors ≠ [] := by
  have hfmem : ∀ c, c ∈ filter_grey greyness colors ↔
      c ∈ colors ∧ greyness ≤ c.2.1 := by
    intro c
    simp [filter_grey, List.mem_filter]
  refine ⟨hfmem, List.filter_sublist colors, ?_, ?_, ?_, ?_⟩
  · intro h
    have hnil : filter_grey greyness colors = [] := by
      rw [List.eq_nil_iff_forall_not_mem]
      intro c hc
      have := (hfmem c).mp hc
      exact absurd this.2 (not_le.mpr (h c this.1))
    simp [select_colors, hnil]
  · simp only [select_colors]
    exact le_trans (List.length_take_le _ _) (le_refl _)
  · simp only [select_colors]
    split
    · exact List.take_sublist _ _
    · exact (List.take_sublist _ _).trans (List.filter_sublist colors)
  · simp only [select_colors]
    split
    · exact take_ne_nil_of_pos hne htop
    · rename_i hfe
      exact take_ne_nil_of_pos (by simpa [List.isEmpty_iff] using hfe) htop

/-- The sampled colors of the spec example scenario: saturations 5, 80, 90. -/
def c8WitnessColors : List HsvColor := [(10, 5, 50), (20, 80, 60), (30, 90, 70)]

/-- Witness for c8_greyness_fallback at the spec example (greyness 10,
top 2). -/
theorem c8_greyness_fallback_witness :
    (∀ c, c ∈ filter_grey 10 c8WitnessColors ↔
      c ∈ c8WitnessColors ∧ 10 ≤ c.2.1) ∧
    List.Sublist (filter_grey 10 c8WitnessColors) c8WitnessColors ∧
    ((∀ c ∈ c8WitnessColors, c.2.1 < 10) →
      select_colors 10 2 c8WitnessColors = c8WitnessColors.take 2) ∧
    (select_colors 10 2 c8WitnessColors).length ≤ 2 ∧
    List.Sublist (select_colors 10 2 c8WitnessColors) c8WitnessColors ∧
    select_colors 10 2 c8WitnessColors ≠ [] :=
  c8_greyness_fallback 10 2 c8WitnessColors (by decide) (by decide)

theorem pyInt_eq_floor {q : ℚ} (h : 0 ≤ q) : pyInt q = ⌊q⌋ := if_pos h

theorem colorsys_bounds {r g b : ℚ} (hr0 : 0 ≤ r) (hr1 : r ≤ 1)
    (hg0 : 0 ≤ g) (hg1 : g ≤ 1) (hb0 : 0 ≤ b) (hb1 : b ≤ 1) :
    0 ≤ (colorsys_rgb_to_hsv r g b).1 ∧ (colorsys_rgb_to_hsv r g b).1 < 1 ∧
    0 ≤ (colorsys_rgb_to_hsv r g b).2.1 ∧ (colorsys_rgb_to_hsv r g b).2.1 ≤ 1 ∧
    0 ≤ (colorsys_rgb_to_hsv r g b).2.2 ∧ (colorsys_rgb_to_hsv r g b).2.2 ≤ 1 := by
  have hmax0 : 0 ≤ max r (max g b) := le_trans hr0 (le_max_left _ _)
  have hmax1 : max r (max g b) ≤ 1 := max_le hr1 (max_le hg1 hb1)
  have hmin0 : 0 ≤ min r (min g b) := le_min hr0 (le_min hg0 hb0)
  unfold colorsys_rgb_to_hsv
  by_cases h : min r (min g b) = max r (max g b)
  · rw [if_pos h]
    exact ⟨le_refl 0, by norm_num, le_refl 0, by norm_num, hmax0, hmax1⟩
  · rw [if_neg h]
    have hminmax : min r (min g b) ≤ max r (max g b) :=
      le_trans (min_le_left _ _) (le_max_left _ _)
    have hmaxpos : 0 < max r (max g b) :=
      lt_of_le_of_lt hmin0 (lt_of_le_of_ne hminmax h)
    dsimp only
    refine ⟨Int.fract_nonneg _, Int.fract_lt_one _, ?_, ?_, hmax0, hmax1⟩
    · exact div_nonneg (by linarith) hmaxpos.le
    · rw [div_le_one hmaxpos]
      linarith

theorem ambilight_rgb_to_hsv_bounds {c : Nat × Nat × Nat}
    (h1 : c.1 ≤ 255) (h2 : c.2.1 ≤ 255) (h3 : c.2.2 ≤ 255) :
    0 ≤ (ambilight_rgb_to_hsv c).1 ∧ (ambilight_rgb_to_hsv c).1 < 360 ∧
    0 ≤ (ambilight_rgb_to_hsv c).2.1 ∧ (ambilight_rgb_to_hsv c).2.1 ≤ 100 ∧
    0 ≤ (ambilight_rgb_to_hsv c).2.2 ∧ (ambilight_rgb_to_hsv c).2.2 ≤ 100 := by
  have hr0 : (0:ℚ) ≤ (c.1 : ℚ) / 255 := by positivity
  have hr1 : (c.1 : ℚ) / 255 ≤ 1 := by
    rw [div_le_one (by norm_num)]
    exact_mod_cast h1
  have hg0 : (0:ℚ) ≤ (c.2.1 : ℚ) / 255 := by positivity
  have hg1 : (c.2.1 : ℚ) / 255 ≤ 1 := by
    rw [div_le_one (by norm_num)]
    exact_mod_cast h2
  have hb0 : (0:ℚ) ≤ (c.2.2 : ℚ) / 255 := by positivity
  have hb1 : (c.2.2 : ℚ) / 255 ≤ 1 := by
    rw [div_le_one (by norm_num)]
    exact_mod_cast h3
  obtain ⟨hh0, hh1, hs0, hs1, hv0, hv1⟩ :=
    colorsys_bounds hr0 hr1 hg0 hg1 hb0 hb1
  unfold ambilight_rgb_to_hsv
  dsimp only
  rw [pyInt_eq_floor (by nlinarith), pyInt_eq_floor (by nlinarith),
    pyInt_eq_floor (by nlinarith)]
  refine ⟨Int.le_floor.mpr (by push_cast; nlinarith),
    Int.floor_lt.mpr (by push_cast; nlinarith),
    Int.le_floor.mpr (by push_cast; nlinarith), ?_,
    Int.le_floor.mpr (by push_cast; nlinarith), ?_⟩
  · have := Int.floor_le_floor (show (colorsys_rgb_to_hsv ((c.1 : ℚ) / 255)
      ((c.2.1 : ℚ) / 255) ((c.2.2 : ℚ) / 255)).2.1 * 100 ≤ (100:ℚ) by nlinarith)
    simpa using this
  · have := Int.floor_le_floor (show (colorsys_rgb_to_hsv ((c.1 : ℚ) / 255)
      ((c.2.1 : ℚ) / 255) ((c.2.2 : ℚ) / 255)).2.2 * 100 ≤ (100:ℚ) by nlinarith)
    simpa using this

/-- C9: rendering the effect template for a list of screen colors (each
channel 0..255) preserves every template field other than palette, and the
palette has exactly one entry per color, in the same order, whose components
are the RGB to HSV conversion of that color scaled to 360/100/100 and
truncated, with integer hue in [0, 360), saturation in [0, 100] and
brightness in [0, 100]. -/
theorem c9_payload_fidelity (rgbs : List (Nat × Nat × Nat))
    (hb : ∀ c ∈ rgbs, c.1 ≤ 255 ∧ c.2.1 ≤ 255 ∧ c.2.2 ≤ 255) :
    (render_effect_template (rgbs.map ambilight_rgb_to_hsv)).command =
      EFFECT_TEMPLATE.command ∧
    (render_effect_template (rgbs.map ambilight_rgb_to_hsv)).animName =
      EFFECT_TEMPLATE.animName ∧
    (render_effect_template (rgbs.map ambilight_rgb_to_hsv)).animType =
      EFFECT_TEMPLATE.animType ∧
    (render_effect_template (rgbs.map ambilight_rgb_to_hsv)).colorType =
      EFFECT_TEMPLATE.colorType ∧
    (render_effect_template (rgbs.map ambilight_rgb_to_hsv)).animData =
      EFFECT_TEMPLATE.animData ∧
    (render_effect_template (rgbs.map ambilight_rgb_to_hsv)).brightnessRange =
      EFFECT_TEMPLATE.brightnessRange ∧
    (render_effect_template (rgbs.map ambilight_rgb_to_hsv)).transTime =
      EFFECT_TEMPLATE.transTime ∧
    (render_effect_template (rgbs.map ambilight_rgb_to_hsv)).delayTime =
      EFFECT_TEMPLATE.delayTime ∧
    (render_effect_template (rgbs.map ambilight_rgb_to_hsv)).loop =
      EFFECT_TEMPLATE.loop ∧
    (render_effect_template (rgbs.map ambilight_rgb_to_hsv)).palette.length =
      rgbs.length ∧
    List.Forall₂ (fun rgb e =>
        e.hue = (ambilight_rgb_to_hsv rgb).1 ∧
        e.saturation = (ambilight_rgb_to_hsv rgb).2.1 ∧
        e.brightness = (ambilight_rgb_to_hsv rgb).2.2 ∧
        0 ≤ e.hue ∧ e.hue < 360 ∧ 0 ≤ e.saturation ∧ e.saturation ≤ 100 ∧
        0 ≤ e.brightness ∧ e.brightness ≤ 100)
      rgbs (render_effect_template (rgbs.map ambilight_rgb_to_hsv)).palette := by
  refine ⟨rfl, rfl, rfl, rfl, rfl, rfl, rfl, rfl, rfl, by
    simp [render_effect_template], ?_⟩
  show List.Forall₂ _ rgbs ((rgbs.map ambilight_rgb_to_hsv).map _)
  rw [List.map_map, List.forall₂_map_right_iff, List.forall₂_same]
  intro x hx
  obtain ⟨hx1, hx2, hx3⟩ := hb x hx
  obtain ⟨b1, b2, b3, b4, b5, b6⟩ := ambilight_rgb_to_hsv_bounds hx1 hx2 hx3
  exact ⟨rfl, rfl, rfl, b1, b2, b3, b4, b5, b6⟩

/-- Witness for c9_payload_fidelity on the single pure-red pixel color. -/
theorem c9_payload_fidelity_witness :
    (render_effect_template ([(255, 0, 0)].map ambilight_rgb_to_hsv)).animName =
      EFFECT_TEMPLATE.animName ∧
    (render_effect_template ([(255, 0, 0)].map ambilight_rgb_to_hsv)).palette.length = 1 ∧
    List.Forall₂ (fun rgb e =>
        e.hue = (ambilight_rgb_to_hsv rgb).1 ∧
        e.saturation = (ambilight_rgb_to_hsv rgb).2.1 ∧
        e.brightness = (ambilight_rgb_to_hsv rgb).2.2 ∧
        0 ≤ e.hue ∧ e.hue < 360 ∧ 0 ≤ e.saturation ∧ e.saturation ≤ 100 ∧
        0 ≤ e.brightness ∧ e.brightness ≤ 100)
      [(255, 0, 0)]
      (render_effect_template ([(255, 0, 0)].map ambilight_rgb_to_hsv)).palette :=
  ⟨(c9_payload_fidelity [(255, 0, 0)] (by decide)).2.1,
   (c9_payload_fidelity [(255, 0, 0)] (by decide)).2.2.2.2.2.2.2.2.2.1,
   (c9_payload_fidelity [(255, 0, 0)] (by decide)).2.2.2.2.2.2.2.2.2.2⟩

end Auri
